import Mathlib

deriving instance DecidableEq for Except

/-!
Verification of the FetchRoute route-optimization core
(`src/utils/routeOptimization.js`) against its specification.

The JavaScript module exports four functions: `calculateDistance`
(Haversine great-circle distance), `nearestNeighbor` (greedy tour
construction), `formatAppointmentsForRouting` (input validation and
adaptation) and `optimizeRoute` (the facade that assembles the final
route result with schedule waypoints).

Modelling conventions:
* JavaScript numbers used as times are `Date` millisecond values; we model
  `Date` objects by their millisecond value (`Int`) and the arithmetic done
  on them by exact rationals (`ℚ`), applying the `Date` constructor's
  truncation toward zero (`jsDateValue`) where `new Date(number)` occurs.
* `null`/`undefined`-able fields become `Option`s; a JavaScript property
  access on `undefined` followed by a method call throws a `TypeError`,
  modelled by the error value `RouteError.typeError`.
* `calculateDistance` itself computes with transcendental functions; it is
  modelled over the reals (`calculateDistance`, §Haversine below).  The
  tour-construction and scheduling code consumes the distance function
  only through its values, so `nearestNeighbor` and `optimizeRoute` are
  parameterised by the distance function; every theorem about them holds
  for an arbitrary distance function, in particular for the Haversine one.
  Concrete evaluations instantiate the parameter with the zero function,
  which the Haversine metric realises on coincident coordinates
  (`calculateDistance_symm_self`).
-/

/-! ### Haversine distance (`calculateDistance`, lines 8–26) -/

/-- Coordinates as consumed by `calculateDistance`: latitude and longitude
in degrees.  Modelled over `ℝ` because the source computes with
trigonometric functions. -/
structure Coordinate where
  latitude : ℝ
  longitude : ℝ

/-- Source: `const toRadians = (degree) => degree * Math.PI / 180`. -/
noncomputable def toRadians (degree : ℝ) : ℝ := degree * Real.pi / 180

/-- JavaScript's `Math.atan2(y, x)`. -/
noncomputable def atan2 (y x : ℝ) : ℝ :=
  if 0 < x then Real.arctan (y / x)
  else if x < 0 ∧ 0 ≤ y then Real.arctan (y / x) + Real.pi
  else if x < 0 ∧ y < 0 then Real.arctan (y / x) - Real.pi
  else if x = 0 ∧ 0 < y then Real.pi / 2
  else if x = 0 ∧ y < 0 then -(Real.pi / 2)
  else 0

/-- The intermediate value `a` of the Haversine formula (lines 17–20):
`sin(dLat/2)² + cos(lat1)·cos(lat2)·sin(dLng/2)²`. -/
noncomputable def haversineA (c1 c2 : Coordinate) : ℝ :=
  Real.sin (toRadians (c2.latitude - c1.latitude) / 2) *
      Real.sin (toRadians (c2.latitude - c1.latitude) / 2) +
    Real.cos (toRadians c1.latitude) * Real.cos (toRadians c2.latitude) *
      Real.sin (toRadians (c2.longitude - c1.longitude) / 2) *
      Real.sin (toRadians (c2.longitude - c1.longitude) / 2)

/-- Source lines 8–26.  `if (!coord1 || !coord2) return 0`, then the
Haversine formula with Earth radius `R = 6371` km:
`c = 2 * atan2(sqrt a, sqrt (1 - a)); distance = R * c`. -/
noncomputable def calculateDistance : Option Coordinate → Option Coordinate → ℝ
  | some c1, some c2 =>
      6371 * (2 * atan2 (Real.sqrt (haversineA c1 c2)) (Real.sqrt (1 - haversineA c1 c2)))
  | _, _ => 0

/-! ### Nearest-neighbor tour construction (`nearestNeighbor`, lines 30–77)

The loop body scans the unvisited pool for the index of the stop with the
strictly smallest distance from the current position (`shortestDistance`
starts at `Infinity`, so the stop at index 0 always wins the first
comparison), appends that stop to the route, adds the chosen distance to
the running total, makes the chosen stop the current position and splices
it out of the pool.  The `while` loop removes exactly one element per
iteration, so it runs exactly `destinations.length` times; the model makes
this explicit with a fuel argument equal to the pool length.

The functions are parameterised by the distance from the current position
(`f : P → ℚ`, standing for `calculateDistance(currentPoint.coordinates,
·.coordinates)`) and the stop-to-stop distance (`d : P → P → ℚ`). -/

/-- Inner `for` loop (lines 49–61): scan the remaining pool (`l`) starting
at index `i`, carrying the best index `bi` and best distance `bd` so far,
updating only on a strict improvement (`distance < shortestDistance`). -/
def scanMin {P : Type} (f : P → ℚ) : List P → Nat → Nat → ℚ → Nat × ℚ
  | [], _, bi, bd => (bi, bd)
  | p :: rest, i, bi, bd =>
      if f p < bd then scanMin f rest (i + 1) i (f p)
      else scanMin f rest (i + 1) bi bd

/-- One full scan of a non-empty pool `u :: us`: the stop at index 0 always
beats the initial `Infinity`, after which the remaining stops are scanned
with strict comparison — so `scanMin` starts at index 1 with best `(0, f u)`. -/
def findNearest {P : Type} (f : P → ℚ) (u : P) (us : List P) : Nat × ℚ :=
  scanMin f us 1 0 (f u)

/-- The index produced by `scanMin` is either the initial best index or an
index of a scanned element; with `bi < i` it is always below `i + l.length`. -/
theorem scanMin_fst_lt {P : Type} (f : P → ℚ) :
    ∀ (l : List P) (i bi : Nat) (bd : ℚ), bi < i → (scanMin f l i bi bd).1 < i + l.length := by
  intro l
  induction l with
  | nil => intro i bi bd h; simpa [scanMin] using Nat.lt_of_lt_of_le h (Nat.le_add_right i 0)
  | cons p rest ih =>
      intro i bi bd h
      simp only [scanMin]
      by_cases hc : f p < bd
      · simp only [hc, if_true]
        have := ih (i + 1) i (f p) (Nat.lt_succ_self i)
        simpa [List.length_cons, Nat.add_comm, Nat.add_left_comm] using this
      · simp only [hc, if_false]
        have := ih (i + 1) bi bd (Nat.lt_of_lt_of_le h (Nat.le_succ i))
        simpa [List.length_cons, Nat.add_comm, Nat.add_left_comm] using this

/-- `findNearest` returns an index inside the pool `u :: us`. -/
theorem findNearest_fst_lt {P : Type} (f : P → ℚ) (u : P) (us : List P) :
    (findNearest f u us).1 < (u :: us).length := by
  have h := scanMin_fst_lt f us 1 0 (f u) Nat.one_pos
  simpa [findNearest, List.length_cons, Nat.add_comm] using h

/-- Outer `while` loop (lines 44–74) with explicit fuel.  Each iteration
chooses the nearest unvisited stop, pushes it onto the route, adds the
chosen distance to the total, moves the current position to the chosen
stop (`d chosen` becomes the new distance-from-current function) and
splices the stop out of the pool (`eraseIdx`). -/
def nnLoopFuel {P : Type} (d : P → P → ℚ) : Nat → (P → ℚ) → List P → List P × ℚ
  | 0, _, _ => ([], 0)
  | _ + 1, _, [] => ([], 0)
  | n + 1, f, u :: us =>
      let r := findNearest f u us
      let chosen := (u :: us).getD r.1 u
      let rest := (u :: us).eraseIdx r.1
      let next := nnLoopFuel d n (d chosen) rest
      (chosen :: next.1, r.2 + next.2)

/-- The `while` loop runs exactly `pool.length` times (one splice per
iteration), so the fuel is the pool length. -/
def nnLoop {P : Type} (d : P → P → ℚ) (f : P → ℚ) (pool : List P) : List P × ℚ :=
  nnLoopFuel d pool.length f pool

/-- Result record `{ route, totalDistance }` of `nearestNeighbor`. -/
structure NNResult (P : Type) where
  route : List P
  totalDistance : ℚ
deriving DecidableEq

/-- Source lines 30–77.  `if (!startingPoint || !destinations ||
destinations.length === 0) return { route: [], totalDistance: 0 }`,
otherwise run the greedy loop starting from the starting point.
`d0 s` is the distance from the starting point (the initial current
position); `d` is the stop-to-stop distance. -/
def nearestNeighbor {S P : Type} (d0 : S → P → ℚ) (d : P → P → ℚ)
    (startingPoint : Option S) (destinations : Option (List P)) : NNResult P :=
  match startingPoint, destinations with
  | some s, some ds =>
      match ds with
      | [] => ⟨[], 0⟩
      | u :: us => ⟨(nnLoop d (d0 s) (u :: us)).1, (nnLoop d (d0 s) (u :: us)).2⟩
  | _, _ => ⟨[], 0⟩

/-! ### Specification lemmas for the greedy scan -/

/-- Full characterisation of the inner scan: either no scanned element
strictly beats the incoming best (and the incoming pair is returned), or
the result is the first-encountered element realising the strict minimum
among the scanned elements. -/
theorem scanMin_spec {P : Type} (f : P → ℚ) :
    ∀ (l : List P) (i bi : Nat) (bd : ℚ),
      (scanMin f l i bi bd = (bi, bd) ∧ ∀ p ∈ l, bd ≤ f p)
      ∨ (∃ k q, l.get? k = some q ∧
          (scanMin f l i bi bd).1 = i + k ∧
          (scanMin f l i bi bd).2 = f q ∧
          f q < bd ∧
          (∀ m q', m < k → l.get? m = some q' → f q < f q') ∧
          (∀ p ∈ l, f q ≤ f p)) := by
  intro l
  induction l with
  | nil =>
      intro i bi bd
      exact Or.inl ⟨rfl, by intro p hp; cases hp⟩
  | cons p rest ih =>
      intro i bi bd
      by_cases hc : f p < bd
      · have hstep : scanMin f (p :: rest) i bi bd = scanMin f rest (i + 1) i (f p) := by
          simp [scanMin, hc]
        rcases ih (i + 1) i (f p) with ⟨heq, hall⟩ | ⟨k, q, hget, h1, h2, h3, h4, h5⟩
        · refine Or.inr ⟨0, p, rfl, ?_, ?_, hc, ?_, ?_⟩
          · rw [hstep, heq]; rfl
          · rw [hstep, heq]
          · intro m q' hm _; cases hm
          · intro x hx
            rcases List.mem_cons.mp hx with h | h
            · exact le_of_eq (congrArg f h.symm)
            · exact hall x h
        · refine Or.inr ⟨k + 1, q, by simpa using hget, ?_, ?_, lt_trans h3 hc, ?_, ?_⟩
          · rw [hstep, h1]; omega
          · rw [hstep, h2]
          · intro m q' hm hq'
            match m with
            | 0 =>
                have hpq : p = q' := by simpa using hq'
                exact hpq ▸ h3
            | m' + 1 =>
                exact h4 m' q' (Nat.lt_of_succ_lt_succ hm) (by simpa using hq')
          · intro x hx
            rcases List.mem_cons.mp hx with h | h
            · exact le_of_lt (h ▸ h3)
            · exact h5 x h
      · have hstep : scanMin f (p :: rest) i bi bd = scanMin f rest (i + 1) bi bd := by
          simp [scanMin, hc]
        have hbdp : bd ≤ f p := not_lt.mp hc
        rcases ih (i + 1) bi bd with ⟨heq, hall⟩ | ⟨k, q, hget, h1, h2, h3, h4, h5⟩
        · refine Or.inl ⟨by rw [hstep, heq], ?_⟩
          intro x hx
          rcases List.mem_cons.mp hx with h | h
          · exact h ▸ hbdp
          · exact hall x h
        · refine Or.inr ⟨k + 1, q, by simpa using hget, ?_, ?_, h3, ?_, ?_⟩
          · rw [hstep, h1]; omega
          · rw [hstep, h2]
          · intro m q' hm hq'
            match m with
            | 0 =>
                have hpq : p = q' := by simpa using hq'
                exact hpq ▸ lt_of_lt_of_le h3 hbdp
            | m' + 1 =>
                exact h4 m' q' (Nat.lt_of_succ_lt_succ hm) (by simpa using hq')
          · intro x hx
            rcases List.mem_cons.mp hx with h | h
            · exact h ▸ le_of_lt (lt_of_lt_of_le h3 hbdp)
            · exact h5 x h

/-- `findNearest` produces the index and distance of a pool element whose
distance is minimal, and every element at a strictly smaller index has a
strictly larger distance (first-encountered tie-breaking). -/
theorem findNearest_spec {P : Type} (f : P → ℚ) (u : P) (us : List P) :
    ∃ q, (u :: us).get? (findNearest f u us).1 = some q ∧
      (findNearest f u us).2 = f q ∧
      (∀ p ∈ u :: us, f q ≤ f p) ∧
      (∀ m q', m < (findNearest f u us).1 → (u :: us).get? m = some q' → f q < f q') := by
  rcases scanMin_spec f us 1 0 (f u) with ⟨heq, hall⟩ | ⟨k, q, hget, h1, h2, h3, h4, h5⟩
  · refine ⟨u, ?_, ?_, ?_, ?_⟩
    · simp [findNearest, heq]
    · simp [findNearest, heq]
    · intro p hp
      rcases List.mem_cons.mp hp with h | h
      · exact le_of_eq (congrArg f h.symm)
      · exact hall p h
    · intro m q' hm
      simp [findNearest, heq] at hm
  · have hidx : (findNearest f u us).1 = k + 1 := by
      simpa [findNearest, Nat.add_comm] using h1
    refine ⟨q, ?_, ?_, ?_, ?_⟩
    · rw [hidx]; simpa using hget
    · simpa [findNearest] using h2
    · intro p hp
      rcases List.mem_cons.mp hp with h | h
      · exact h ▸ le_of_lt h3
      · exact h5 p h
    · intro m q' hm hq'
      rw [hidx] at hm
      match m with
      | 0 =>
          have hpq : u = q' := by simpa using hq'
          exact hpq ▸ h3
      | m' + 1 =>
          exact h4 m' q' (Nat.lt_of_succ_lt_succ hm) (by simpa using hq')

/-- Removing the element returned by `get?` and re-consing it yields a
permutation of the original list. -/
theorem perm_get_cons_eraseIdx {P : Type} :
    ∀ (l : List P) (k : Nat) (q : P), l.get? k = some q → (q :: l.eraseIdx k).Perm l := by
  intro l
  induction l with
  | nil => intro k q h; cases h
  | cons a l' ih =>
      intro k q h
      match k with
      | 0 =>
          have haq : a = q := by simpa using h
          subst haq
          simp [List.eraseIdx]
      | k' + 1 =>
          have h' : l'.get? k' = some q := by simpa using h
          have hcons := (ih k' q h').cons a
          have hsw : (q :: (a :: l').eraseIdx (k' + 1)).Perm (a :: q :: l'.eraseIdx k') := by
            simpa [List.eraseIdx] using List.Perm.swap a q (l'.eraseIdx k')
          exact hsw.trans hcons

/-- `const nearestPoint = unvisited[nearestPointIndex]` (line 64): the pool
element at the index found by the scan (the default of `getD` is never used
because the index is in range, `findNearest_fst_lt`). -/
def nnChosen {P : Type} (f : P → ℚ) (u : P) (us : List P) : P :=
  (u :: us).getD (findNearest f u us).1 u

/-- `unvisited.splice(nearestPointIndex, 1)` (line 73): the pool with the
chosen stop removed, order preserved. -/
def nnRest {P : Type} (f : P → ℚ) (u : P) (us : List P) : List P :=
  (u :: us).eraseIdx (findNearest f u us).1

/-- Splicing one element out of the pool shrinks it by exactly one. -/
theorem nnRest_length {P : Type} (f : P → ℚ) (u : P) (us : List P) :
    (nnRest f u us).length = us.length := by
  have h := List.length_eraseIdx_add_one (findNearest_fst_lt f u us)
  simpa [nnRest] using Nat.succ_injective (by simpa using h)

/-- The chosen stop is the pool element found by the scan. -/
theorem nnChosen_get {P : Type} (f : P → ℚ) (u : P) (us : List P) :
    (u :: us).get? (findNearest f u us).1 = some (nnChosen f u us) := by
  obtain ⟨q, hq, -, -, -⟩ := findNearest_spec f u us
  have : nnChosen f u us = q := by
    rw [nnChosen, List.getD_eq_get?, hq]; rfl
  rw [this]; exact hq

/-- One unfolding of the greedy loop on a non-empty pool. -/
theorem nnLoop_cons {P : Type} (d : P → P → ℚ) (f : P → ℚ) (u : P) (us : List P) :
    nnLoop d f (u :: us) =
      (nnChosen f u us :: (nnLoop d (d (nnChosen f u us)) (nnRest f u us)).1,
        (findNearest f u us).2 + (nnLoop d (d (nnChosen f u us)) (nnRest f u us)).2) := by
  have hl : (nnRest f u us).length = us.length := nnRest_length f u us
  simp only [nnLoop, List.length_cons, nnLoopFuel, ← hl, nnChosen, nnRest]

/-- The route computed with sufficient fuel is a permutation of the pool. -/
theorem nnLoopFuel_perm {P : Type} (d : P → P → ℚ) :
    ∀ (n : Nat) (pool : List P) (f : P → ℚ), pool.length ≤ n →
      ((nnLoopFuel d n f pool).1).Perm pool := by
  intro n
  induction n with
  | zero =>
      intro pool f h
      have : pool = [] := List.eq_nil_of_length_eq_zero (Nat.le_zero.mp h)
      subst this
      simp [nnLoopFuel]
  | succ n ih =>
      intro pool f h
      match pool with
      | [] => simp [nnLoopFuel]
      | u :: us =>
          have hstep : nnLoopFuel d (n + 1) f (u :: us) =
              (nnChosen f u us :: (nnLoopFuel d n (d (nnChosen f u us)) (nnRest f u us)).1,
                (findNearest f u us).2 +
                  (nnLoopFuel d n (d (nnChosen f u us)) (nnRest f u us)).2) := by
            simp only [nnLoopFuel, nnChosen, nnRest]
          rw [hstep]
          have hlen : (nnRest f u us).length ≤ n := by
            rw [nnRest_length]
            simp only [List.length_cons] at h
            omega
          have hperm := ih (nnRest f u us) (d (nnChosen f u us)) hlen
          exact (hperm.cons (nnChosen f u us)).trans
            (perm_get_cons_eraseIdx (u :: us) (findNearest f u us).1 (nnChosen f u us)
              (nnChosen_get f u us))

/-- Sum of the distances of the legs actually taken: `f` is the distance
from the current position, and after visiting a stop `r` the
distance-from-current function becomes `d r`. -/
def legDistanceSum {P : Type} (d : P → P → ℚ) (f : P → ℚ) : List P → ℚ
  | [] => 0
  | r :: rs => f r + legDistanceSum d (d r) rs

/-- The accumulated total of the greedy loop is exactly the sum of the legs
of the route it returns. -/
theorem nnLoopFuel_total {P : Type} (d : P → P → ℚ) :
    ∀ (n : Nat) (pool : List P) (f : P → ℚ), pool.length ≤ n →
      (nnLoopFuel d n f pool).2 = legDistanceSum d f (nnLoopFuel d n f pool).1 := by
  intro n
  induction n with
  | zero =>
      intro pool f h
      have : pool = [] := List.eq_nil_of_length_eq_zero (Nat.le_zero.mp h)
      subst this
      simp [nnLoopFuel, legDistanceSum]
  | succ n ih =>
      intro pool f h
      match pool with
      | [] => simp [nnLoopFuel, legDistanceSum]
      | u :: us =>
          have hstep : nnLoopFuel d (n + 1) f (u :: us) =
              (nnChosen f u us :: (nnLoopFuel d n (d (nnChosen f u us)) (nnRest f u us)).1,
                (findNearest f u us).2 +
                  (nnLoopFuel d n (d (nnChosen f u us)) (nnRest f u us)).2) := by
            simp only [nnLoopFuel, nnChosen, nnRest]
          rw [hstep]
          have hlen : (nnRest f u us).length ≤ n := by
            rw [nnRest_length]
            simp only [List.length_cons] at h
            omega
          have hq : (findNearest f u us).2 = f (nnChosen f u us) := by
            obtain ⟨q, hget, hval, -, -⟩ := findNearest_spec f u us
            have : nnChosen f u us = q := by
              have := nnChosen_get f u us
              rw [hget] at this
              exact (Option.some_injective _ this).symm
            rw [this, hval]
          simp only [legDistanceSum, hq, ih (nnRest f u us) (d (nnChosen f u us)) hlen]

/-! ### Claim theorems for the tour builder -/

/-- C5: for every starting point and every non-empty destination list, the
route returned by `nearestNeighbor` is exactly a permutation of the input
destinations (`List.Perm` means equal multisets: same cardinality, same
elements with multiplicity, no duplicates introduced, none dropped).  The
distance functions `d0` (start→stop) and `d` (stop→stop) are arbitrary, so
the statement covers in particular the Haversine `calculateDistance` used
by the source. -/
theorem nearestNeighbor_perm {S P : Type} (d0 : S → P → ℚ) (d : P → P → ℚ)
    (s : S) (ds : List P) (hne : ds ≠ []) :
    ((nearestNeighbor d0 d (some s) (some ds)).route).Perm ds := by
  match ds with
  | [] => exact absurd rfl hne
  | u :: us =>
      show ((nnLoop d (d0 s) (u :: us)).1).Perm (u :: us)
      exact nnLoopFuel_perm d (u :: us).length (u :: us) (d0 s) (Nat.le_refl _)

/-- Witness for C5 at a concrete input: start `0`, destinations
`[3, 1, 2]` with distance `|a - b|`. -/
theorem nearestNeighbor_perm_witness :
    (([3, 1, 2] : List ℚ) ≠ []) ∧
      ((nearestNeighbor (fun s p => |s - p|) (fun a b => |a - b|)
          (some (0 : ℚ)) (some [3, 1, 2])).route).Perm [3, 1, 2] :=
  ⟨by decide, nearestNeighbor_perm (fun s p => |s - p|) (fun a b => |a - b|) 0 [3, 1, 2]
      (by decide)⟩

/-- C6: at every iteration of the `nearestNeighbor` loop on a non-empty
pool `u :: us` (where `f` is the distance from the current position, at
the first iteration `f = d0 startingPoint` and afterwards `f = d chosen`),
the loop appends `nnChosen f u us`, which (i) sits in the pool at the index
`(findNearest f u us).1` found by the scan, (ii) has minimal distance from
the current position among all stops in the pool, and (iii) strictly beats
every stop at a smaller (earlier-encountered) index, i.e. ties are broken
by the first-encountered index; the loop then recurses on the spliced pool
`nnRest f u us` with the chosen stop as current position, so the same
statement applies at every subsequent iteration. -/
theorem nearestNeighbor_greedy_choice {P : Type} (d : P → P → ℚ) (f : P → ℚ)
    (u : P) (us : List P) :
    (nnLoop d f (u :: us)).1
        = nnChosen f u us :: (nnLoop d (d (nnChosen f u us)) (nnRest f u us)).1 ∧
      (u :: us).get? (findNearest f u us).1 = some (nnChosen f u us) ∧
      (∀ p ∈ u :: us, f (nnChosen f u us) ≤ f p) ∧
      (∀ m q, m < (findNearest f u us).1 → (u :: us).get? m = some q →
        f (nnChosen f u us) < f q) := by
  obtain ⟨q, hget, hval, hmin, hfirst⟩ := findNearest_spec f u us
  have hq : nnChosen f u us = q := by
    have := nnChosen_get f u us
    rw [hget] at this
    exact (Option.some_injective _ this).symm
  refine ⟨?_, nnChosen_get f u us, ?_, ?_⟩
  · rw [nnLoop_cons]
  · intro p hp; rw [hq]; exact hmin p hp
  · intro m q' hm hq'; rw [hq]; exact hfirst m q' hm hq'

/-- C7: the `totalDistance` returned by `nearestNeighbor` is exactly the
sum of the distances of the consecutive legs of the returned route,
starting with the leg from the starting point (`d0 s`) to the first
visited stop; and for an empty destination list it is `0`. -/
theorem nearestNeighbor_totalDistance_legs {S P : Type} (d0 : S → P → ℚ) (d : P → P → ℚ)
    (s : S) (ds : List P) :
    (nearestNeighbor d0 d (some s) (some ds)).totalDistance
        = legDistanceSum d (d0 s) ((nearestNeighbor d0 d (some s) (some ds)).route) ∧
      (nearestNeighbor d0 d (some s) (some ([] : List P))).totalDistance = 0 := by
  refine ⟨?_, rfl⟩
  match ds with
  | [] => rfl
  | u :: us =>
      show (nnLoop d (d0 s) (u :: us)).2 = legDistanceSum d (d0 s) (nnLoop d (d0 s) (u :: us)).1
      exact nnLoopFuel_total d (u :: us).length (u :: us) (d0 s) (Nat.le_refl _)

/-- C10: calling `nearestNeighbor` with an absent (null/undefined) starting
point, or with an absent destinations collection, returns the empty route
with `totalDistance = 0` — the same value returned for an empty destination
list — rather than raising an error (the model is a total function exactly
because the source's guard `if (!startingPoint || !destinations ||
destinations.length === 0)` returns early on these inputs). -/
theorem nearestNeighbor_absent_inputs {S P : Type} (d0 : S → P → ℚ) (d : P → P → ℚ) :
    (∀ ds : Option (List P), nearestNeighbor d0 d none ds = ⟨[], 0⟩) ∧
      (∀ s : S, nearestNeighbor d0 d (some s) none = ⟨[], 0⟩) ∧
      (∀ s : S, nearestNeighbor d0 d (some s) (some []) = ⟨[], 0⟩) := by
  refine ⟨fun ds => ?_, fun s => rfl, fun s => rfl⟩
  match ds with
  | none => rfl
  | some l => rfl

/-! ### Claim theorem for the distance metric -/

/-- The Haversine intermediate value is symmetric in its two coordinates:
`sin(-x)² = sin(x)²` for both the latitude and longitude differences, and
the cosine product commutes. -/
theorem haversineA_comm (c1 c2 : Coordinate) : haversineA c1 c2 = haversineA c2 c1 := by
  unfold haversineA
  have hlat : toRadians (c2.latitude - c1.latitude) / 2
      = -(toRadians (c1.latitude - c2.latitude) / 2) := by
    unfold toRadians; ring
  have hlng : toRadians (c2.longitude - c1.longitude) / 2
      = -(toRadians (c1.longitude - c2.longitude) / 2) := by
    unfold toRadians; ring
  rw [hlat, hlng, Real.sin_neg, Real.sin_neg]
  ring

/-- The Haversine intermediate value vanishes on coincident coordinates. -/
theorem haversineA_self (c : Coordinate) : haversineA c c = 0 := by
  unfold haversineA toRadians
  simp

/-- C9: `calculateDistance` is symmetric, and the distance from a
coordinate to itself is exactly `0` (the value `a` of the formula is `0`,
so `c = 2 * atan2(√0, √1) = 2 * arctan 0 = 0`). -/
theorem calculateDistance_symm_self :
    (∀ a b : Coordinate,
        calculateDistance (some a) (some b) = calculateDistance (some b) (some a)) ∧
      (∀ a : Coordinate, calculateDistance (some a) (some a) = 0) := by
  constructor
  · intro a b
    show 6371 * (2 * atan2 (Real.sqrt (haversineA a b)) (Real.sqrt (1 - haversineA a b)))
        = 6371 * (2 * atan2 (Real.sqrt (haversineA b a)) (Real.sqrt (1 - haversineA b a)))
    rw [haversineA_comm]
  · intro a
    show 6371 * (2 * atan2 (Real.sqrt (haversineA a a)) (Real.sqrt (1 - haversineA a a))) = 0
    rw [haversineA_self]
    have h1 : Real.sqrt 0 = 0 := Real.sqrt_zero
    have h2 : Real.sqrt (1 - 0) = 1 := by rw [sub_zero]; exact Real.sqrt_one
    rw [h1, h2]
    have h3 : atan2 0 1 = 0 := by
      unfold atan2
      rw [if_pos one_pos]
      simp [Real.arctan_zero]
    rw [h3]
    ring

/-! ### Input adaptation (`formatAppointmentsForRouting`, lines 80–109)

From here on coordinates only flow into the abstract distance parameter,
so they are modelled as exact rationals to keep everything executable. -/

/-- Coordinate pair as stored on client addresses and starting points. -/
structure Coords where
  latitude : ℚ
  longitude : ℚ
deriving DecidableEq

/-- A client's geocoded address: `formatted` string and coordinates, either
of which may be absent. -/
structure Address where
  formatted : Option String
  coordinates : Option Coords
deriving DecidableEq

/-- Nested client record of an appointment. -/
structure Client where
  name : String
  address : Option Address
deriving DecidableEq

/-- Raw appointment record as supplied by the appointment provider.
`date` is the scheduled time as a `Date` millisecond value (`none` models a
missing/undefined scheduled time); `duration` is in minutes (`none` models
an undefined duration). -/
structure Appointment where
  id : String
  clientId : String
  petId : String
  date : Option Int
  serviceType : String
  duration : Option ℚ
  client : Option Client
deriving DecidableEq

/-- User-supplied starting point: descriptive fields plus coordinates,
which the facade validates. -/
structure StartingPoint where
  name : String
  address : String
  coordinates : Option Coords
deriving DecidableEq

/-- JavaScript `x || dflt` on a number: `undefined`, `null` and `0` are
falsy, so they yield the default (used for `appointment.duration || 60`). -/
def jsNumOr (x : Option ℚ) (dflt : ℚ) : ℚ :=
  match x with
  | none => dflt
  | some v => if v = 0 then dflt else v

/-- JavaScript `s || dflt` on a string: `undefined`, `null` and the empty
string are falsy (used for `client.address.formatted || 'Address not
available'`). -/
def jsStrOr (s : Option String) (dflt : String) : String :=
  match s with
  | none => dflt
  | some v => if v = "" then dflt else v

/-- Error taxonomy of the module.  The source throws string-keyed `Error`s;
the two validation messages are modelled structurally:
`invalidStartingPoint` stands for `'Invalid starting point. Must include
coordinates.'` and `missingCoordinates d` for
`` `Missing coordinates for appointment at ${appointment.date}` `` (the
error names the offending appointment by its scheduled time `d`).
`typeError` models a JavaScript runtime `TypeError` raised by calling a
method on `undefined`; it carries no identifying information. -/
inductive RouteError where
  | invalidStartingPoint
  | missingCoordinates (date : Option Int)
  | typeError
deriving DecidableEq

/-- A validation error (a thrown `Error` with a message), as opposed to a
runtime `TypeError`. -/
def RouteError.isValidation : RouteError → Bool
  | .invalidStartingPoint => true
  | .missingCoordinates _ => true
  | .typeError => false

/-- An error that identifies an offending appointment (by scheduled time). -/
def RouteError.namesAppointment : RouteError → Bool
  | .missingCoordinates _ => true
  | _ => false

/-- Destination object built per appointment (lines 94–105). -/
structure Destination where
  id : String
  appointmentId : String
  clientId : String
  clientName : String
  petId : String
  time : Option Int
  address : String
  coordinates : Coords
  serviceType : String
  duration : ℚ
deriving DecidableEq

/-- Body of the `appointments.map` callback (lines 87–105): throw when the
client, its address or its coordinates are missing, otherwise build the
destination record. -/
def formatDestination (ap : Appointment) : Except RouteError Destination :=
  match ap.client with
  | none => .error (.missingCoordinates ap.date)
  | some client =>
      match client.address with
      | none => .error (.missingCoordinates ap.date)
      | some addr =>
          match addr.coordinates with
          | none => .error (.missingCoordinates ap.date)
          | some coords =>
              .ok { id := ap.id, appointmentId := ap.id, clientId := ap.clientId,
                    clientName := client.name, petId := ap.petId, time := ap.date,
                    address := jsStrOr addr.formatted ("Address not available"),
                    coordinates := coords, serviceType := ap.serviceType,
                    duration := jsNumOr ap.duration 60 }

/-- `appointments.map(...)` (lines 87–105) with exception propagation: a
thrown exception aborts `Array.prototype.map` at the first offending
element, which the left-to-right `Except` recursion mirrors. -/
def formatDestinations : List Appointment → Except RouteError (List Destination)
  | [] => .ok []
  | ap :: rest =>
      match formatDestination ap with
      | .error e => .error e
      | .ok dest =>
          match formatDestinations rest with
          | .error e => .error e
          | .ok ds => .ok (dest :: ds)

/-- Source lines 80–109: validate the starting point
(`if (!startingPoint || !startingPoint.coordinates) throw ...`), then map
each appointment to a destination. -/
def formatAppointmentsForRouting (appointments : List Appointment)
    (startingPoint : Option StartingPoint) :
    Except RouteError (StartingPoint × List Destination) :=
  match startingPoint with
  | none => .error .invalidStartingPoint
  | some sp =>
      match sp.coordinates with
      | none => .error .invalidStartingPoint
      | some _ =>
          match formatDestinations appointments with
          | .error e => .error e
          | .ok ds => .ok (sp, ds)

/-! ### Schedule synthesis and facade (`optimizeRoute`, lines 112–171) -/

/-- Floor of a rational, computed directly from its normalised numerator
and denominator (`Int.fdiv` is floor division; the denominator is
positive). -/
def ratFloor (q : ℚ) : Int :=
  Int.fdiv q.num (q.den : Int)

/-- JavaScript's `Math.round(x)`: round half toward positive infinity,
`⌊x + 1/2⌋`. -/
def jsRound (q : ℚ) : Int :=
  ratFloor (q + 1 / 2)

/-- `new Date(x)` for a numeric `x`: the time value is clipped to an
integer count of milliseconds by truncation toward zero. -/
def jsDateValue (q : ℚ) : Int :=
  if 0 ≤ q then ratFloor q else -(ratFloor (-q))

/-- One entry of the `waypoints` array (lines 129–156): the source spreads
the starting point (for `type: 'start'` and `type: 'end'`) or the stop (for
`type: 'appointment'`) and adds the type tag plus `arrivalTime` /
`departureTime` (a `Date` modelled by its millisecond value, or `none` for
`null`). -/
inductive Waypoint where
  | start (sp : StartingPoint) (arrivalTime : Option Int) (departureTime : Option Int)
  | appointment (stop : Destination) (arrivalTime : Option Int) (departureTime : Option Int)
  | endPoint (sp : StartingPoint) (arrivalTime : Option Int) (departureTime : Option Int)
deriving DecidableEq

/-- Arrival time of a waypoint. -/
def Waypoint.arrivalTimeOf : Waypoint → Option Int
  | .start _ a _ => a
  | .appointment _ a _ => a
  | .endPoint _ a _ => a

/-- Departure time of a waypoint. -/
def Waypoint.departureTimeOf : Waypoint → Option Int
  | .start _ _ dep => dep
  | .appointment _ _ dep => dep
  | .endPoint _ _ dep => dep

/-- Whether a waypoint carries the `'appointment'` type tag. -/
def Waypoint.isAppointment : Waypoint → Bool
  | .appointment _ _ _ => true
  | _ => false

/-- The underlying stop of an appointment waypoint. -/
def Waypoint.stopOf : Waypoint → Option Destination
  | .appointment stop _ _ => some stop
  | _ => none

/-- Start waypoint (lines 130–135): `departureTime` is the first stop's
scheduled time minus the per-leg share of the travel time when the route is
non-empty (`route[0].time.getTime()` throws a `TypeError` when the first
stop has no scheduled time), and the current time `now` when the route is
empty; `arrivalTime` is `null`. -/
def startWaypoint (sp : StartingPoint) (now : Int) (route : List Destination)
    (legShareMs : ℚ) : Except RouteError Waypoint :=
  match route with
  | [] => .ok (.start sp none (some now))
  | r0 :: _ =>
      match r0.time with
      | none => .error .typeError
      | some t0 => .ok (.start sp none (some (jsDateValue ((t0 : ℚ) - legShareMs))))

/-- Appointment waypoint at index 0 (lines 137–139, 142–146): `arrivalTime
= new Date(stop.time)` — the stop's own scheduled time, authoritative — and
`departureTime = arrivalTime + stop.duration` minutes.  `new
Date(undefined)` is an Invalid Date, not an exception; its propagation is
modelled by `none` (unreachable from `optimizeRoute`, whose start waypoint
is evaluated first and throws on a missing first scheduled time). -/
def firstAppointmentWaypoint (stop : Destination) : Waypoint :=
  .appointment stop stop.time
    (stop.time.map (fun t => jsDateValue ((t : ℚ) + stop.duration * 60000)))

/-- Appointment waypoint at index ≥ 1 (lines 140–146): `arrivalTime =
route[index-1].time.getTime() + route[index-1].duration minutes + legShare`
— computed from the previous stop's scheduled time, not from the previous
waypoint's departure time — and `departureTime = arrivalTime +
stop.duration` minutes.  `.getTime()` on a missing previous scheduled time
throws a `TypeError`. -/
def laterAppointmentWaypoint (prev stop : Destination) (legShareMs : ℚ) :
    Except RouteError Waypoint :=
  match prev.time with
  | none => .error .typeError
  | some tp =>
      let arrival := jsDateValue ((tp : ℚ) + prev.duration * 60000 + legShareMs)
      .ok (.appointment stop (some arrival)
        (some (jsDateValue ((arrival : ℚ) + stop.duration * 60000))))

/-- The appointment waypoints after the first, walking the route with the
previous stop at hand. -/
def laterAppointmentWaypoints (legShareMs : ℚ) :
    Destination → List Destination → Except RouteError (List Waypoint)
  | _, [] => .ok []
  | prev, stop :: rest =>
      match laterAppointmentWaypoint prev stop legShareMs with
      | .error e => .error e
      | .ok w =>
          match laterAppointmentWaypoints legShareMs stop rest with
          | .error e => .error e
          | .ok ws => .ok (w :: ws)

/-- `route.map((stop, index) => ...)` (lines 136–147): one appointment
waypoint per stop of the route, in route order. -/
def appointmentWaypoints (legShareMs : ℚ) :
    List Destination → Except RouteError (List Waypoint)
  | [] => .ok []
  | stop :: rest =>
      match laterAppointmentWaypoints legShareMs stop rest with
      | .error e => .error e
      | .ok ws => .ok (firstAppointmentWaypoint stop :: ws)

/-- End waypoint (lines 148–155).  For a non-empty route the source reads
`route[route.length - 1].departureTime.getTime()`, but the elements of
`route` are the destination objects built by `formatAppointmentsForRouting`
(the `map` over the route builds new waypoint objects and never writes back
into `route`), and a `Destination` carries no `departureTime` field — the
property access yields `undefined` and `.getTime()` throws a `TypeError`.
For an empty route the arrival defaults to the current time; `departureTime`
is `null`. -/
def endWaypoint (sp : StartingPoint) (now : Int) (route : List Destination) :
    Except RouteError Waypoint :=
  match route with
  | [] => .ok (.endPoint sp (some now) none)
  | _ :: _ => .error .typeError

/-- The assembled `RouteResult` (lines 158–166). -/
structure RouteResult where
  waypoints : List Waypoint
  optimizedRoute : List Destination
  appointmentIds : List String
  totalDistance : ℚ
  estimatedTravelTime : Int
  startPoint : StartingPoint
  endPoint : StartingPoint
deriving DecidableEq

/-- Lines 119–166: schedule synthesis and result assembly, shared tail of
the facade.  `travelTimeInMinutes = Math.round(totalDistance / 30 * 60)` (`jsRound`)
(average speed 30 km/h) and the even per-leg share `travelTimeInMinutes /
route.length` minutes (`legShareMs` in milliseconds; for an empty route the
division never influences the result because both waypoint branches guard
on `route.length > 0`).  The `waypoints` array literal evaluates the start
element, the mapped appointment elements and the end element left to right,
so the first thrown exception aborts the whole assembly. -/
def assembleRouteResult (sp : StartingPoint) (now : Int) (route : List Destination)
    (totalDistance : ℚ) : Except RouteError RouteResult :=
  let travelTimeInMinutes : Int := jsRound (totalDistance / 30 * 60)
  let legShareMs : ℚ := ((travelTimeInMinutes : ℚ) / (route.length : ℚ)) * 60000
  match startWaypoint sp now route legShareMs with
  | .error e => .error e
  | .ok s =>
      match appointmentWaypoints legShareMs route with
      | .error e => .error e
      | .ok apWs =>
          match endWaypoint sp now route with
          | .error e => .error e
          | .ok ev =>
              .ok { waypoints := s :: apWs ++ [ev],
                    optimizedRoute := route,
                    appointmentIds := route.map (fun stop => stop.appointmentId),
                    totalDistance := totalDistance,
                    estimatedTravelTime := travelTimeInMinutes,
                    startPoint := sp,
                    endPoint := sp }

/-- Source lines 112–171, the facade.  `dist` abstracts
`calculateDistance` on optional coordinate pairs (the source fixes it to
the Haversine metric); `now` models `new Date()` (used only for an empty
tour).  Adapt and validate the input, run the nearest-neighbor loop, then
synthesise the schedule and assemble the result. -/
def optimizeRoute (dist : Option Coords → Option Coords → ℚ) (now : Int)
    (appointments : List Appointment) (userStartPoint : Option StartingPoint) :
    Except RouteError RouteResult :=
  match formatAppointmentsForRouting appointments userStartPoint with
  | .error e => .error e
  | .ok fmt =>
      let nn := nearestNeighbor
        (fun (sp : StartingPoint) (p : Destination) => dist sp.coordinates (some p.coordinates))
        (fun a b => dist (some a.coordinates) (some b.coordinates))
        (some fmt.1) (some fmt.2)
      assembleRouteResult fmt.1 now nn.route nn.totalDistance

/-! ### Claim theorems for validation (facade input adaptation) -/

/-- Whether an appointment's client record carries coordinates (the
condition validated at line 90: `!client || !client.address ||
!client.address.coordinates`). -/
def Appointment.hasCoords (ap : Appointment) : Bool :=
  match ap.client with
  | none => false
  | some c =>
      match c.address with
      | none => false
      | some a => a.coordinates.isSome

/-- Whether a (possibly absent) starting point carries coordinates (the
condition validated at line 83). -/
def startHasCoords : Option StartingPoint → Bool
  | none => false
  | some sp => sp.coordinates.isSome

/-- An appointment without client coordinates formats to the validation
error naming its scheduled time. -/
theorem formatDestination_bad (ap : Appointment) (h : ap.hasCoords = false) :
    formatDestination ap = .error (.missingCoordinates ap.date) := by
  rcases hc : ap.client with _ | c
  · simp [formatDestination, hc]
  · rcases ha : c.address with _ | a
    · simp [formatDestination, hc, ha]
    · rcases hco : a.coordinates with _ | co
      · simp [formatDestination, hc, ha, hco]
      · exfalso
        simp [Appointment.hasCoords, hc, ha, hco] at h

/-- An appointment with client coordinates formats successfully, and the
destination keeps the appointment's scheduled time. -/
theorem formatDestination_good (ap : Appointment) (h : ap.hasCoords = true) :
    ∃ dest, formatDestination ap = .ok dest ∧ dest.time = ap.date := by
  rcases hc : ap.client with _ | c
  · exfalso; simp [Appointment.hasCoords, hc] at h
  · rcases ha : c.address with _ | a
    · exfalso; simp [Appointment.hasCoords, hc, ha] at h
    · rcases hco : a.coordinates with _ | co
      · exfalso; simp [Appointment.hasCoords, hc, ha, hco] at h
      · refine ⟨{ id := ap.id, appointmentId := ap.id, clientId := ap.clientId,
                  clientName := c.name, petId := ap.petId, time := ap.date,
                  address := jsStrOr a.formatted ("Address not available"),
                  coordinates := co, serviceType := ap.serviceType,
                  duration := jsNumOr ap.duration 60 }, ?_, rfl⟩
        simp [formatDestination, hc, ha, hco]

/-- If some appointment lacks client coordinates, the formatting step fails
with the validation error naming the scheduled time of the first such
appointment. -/
theorem formatDestinations_bad :
    ∀ (apps : List Appointment), (∃ ap ∈ apps, ap.hasCoords = false) →
      ∃ d, formatDestinations apps = .error (.missingCoordinates d) ∧
        ∃ ap ∈ apps, ap.hasCoords = false ∧ ap.date = d := by
  intro apps
  induction apps with
  | nil => rintro ⟨ap, hap, -⟩; cases hap
  | cons a rest ih =>
      rintro ⟨ap, hap, hbad⟩
      match hcoords : a.hasCoords with
      | false =>
          refine ⟨a.date, ?_, a, List.mem_cons_self a rest, hcoords, rfl⟩
          unfold formatDestinations
          rw [formatDestination_bad a hcoords]
      | true =>
          have hrest : ∃ ap ∈ rest, ap.hasCoords = false := by
            rcases List.mem_cons.mp hap with h | h
            · subst h; rw [hcoords] at hbad; cases hbad
            · exact ⟨ap, h, hbad⟩
          obtain ⟨d, herr, ap', hap', hbad', hdate⟩ := ih hrest
          obtain ⟨dest, hok, -⟩ := formatDestination_good a hcoords
          refine ⟨d, ?_, ap', List.mem_cons_of_mem a hap', hbad', hdate⟩
          unfold formatDestinations
          rw [hok, herr]

/-- If the formatting step succeeds, every appointment had client
coordinates, and each destination keeps its appointment's scheduled time
(in order). -/
theorem formatDestinations_ok :
    ∀ (apps : List Appointment) (ds : List Destination),
      formatDestinations apps = .ok ds →
      (∀ ap ∈ apps, ap.hasCoords = true) := by
  intro apps
  induction apps with
  | nil => intro ds _ ap hap; cases hap
  | cons a rest ih =>
      intro ds hok ap hap
      unfold formatDestinations at hok
      match hfd : formatDestination a with
      | .error e => rw [hfd] at hok; cases hok
      | .ok dest =>
          rw [hfd] at hok
          match hrest : formatDestinations rest with
          | .error e => rw [hrest] at hok; cases hok
          | .ok ds' =>
              have hc : a.hasCoords = true := by
                match h : a.hasCoords with
                | true => rfl
                | false => rw [formatDestination_bad a h] at hfd; cases hfd
              rcases List.mem_cons.mp hap with h | h
              · exact h ▸ hc
              · exact ih ds' hrest ap h

/-- The formatting step forwards a destination-formatting error unchanged
once the starting point has been validated. -/
theorem formatAppointmentsForRouting_error (apps : List Appointment)
    (sp : StartingPoint) (c : Coords) (hsp : sp.coordinates = some c)
    (e : RouteError) (h : formatDestinations apps = .error e) :
    formatAppointmentsForRouting apps (some sp) = .error e := by
  simp [formatAppointmentsForRouting, hsp, h]

/-- The formatting step succeeds exactly on the successfully formatted
destinations once the starting point has been validated. -/
theorem formatAppointmentsForRouting_ok (apps : List Appointment)
    (sp : StartingPoint) (c : Coords) (hsp : sp.coordinates = some c)
    (ds : List Destination) (h : formatDestinations apps = .ok ds) :
    formatAppointmentsForRouting apps (some sp) = .ok (sp, ds) := by
  simp [formatAppointmentsForRouting, hsp, h]

/-- A starting point without coordinates (or an absent one) is rejected
before any appointment is examined. -/
theorem formatAppointmentsForRouting_noStart (apps : List Appointment)
    (usp : Option StartingPoint) (h : startHasCoords usp = false) :
    formatAppointmentsForRouting apps usp = .error .invalidStartingPoint := by
  match usp with
  | none => rfl
  | some sp =>
      rcases hsp : sp.coordinates with _ | c
      · simp [formatAppointmentsForRouting, hsp]
      · exfalso; simp [startHasCoords, hsp] at h

/-- An `optimizeRoute` error is exactly the formatting error when the
formatting step fails (the facade runs the formatter first and propagates
its exception). -/
theorem optimizeRoute_format_error (dist : Option Coords → Option Coords → ℚ)
    (now : Int) (apps : List Appointment) (usp : Option StartingPoint)
    (e : RouteError) (h : formatAppointmentsForRouting apps usp = .error e) :
    optimizeRoute dist now apps usp = .error e := by
  simp [optimizeRoute, h]

/-- C4: when the starting point carries coordinates but some appointment's
client has none, `optimizeRoute` fails with the validation error naming the
scheduled time of an offending appointment and produces no `RouteResult`;
when the starting point is absent or lacks coordinates, `optimizeRoute`
fails with the starting-point validation error; and on success there is no
partial result — every appointment had coordinates (success also implies
the full result record is populated, by the type of `optimizeRoute`). -/
theorem optimizeRoute_validation (dist : Option Coords → Option Coords → ℚ)
    (now : Int) (apps : List Appointment) (usp : Option StartingPoint) :
    ((∃ ap ∈ apps, ap.hasCoords = false) → startHasCoords usp = true →
        ∃ d, optimizeRoute dist now apps usp = .error (.missingCoordinates d) ∧
          (RouteError.missingCoordinates d).isValidation = true ∧
          (RouteError.missingCoordinates d).namesAppointment = true ∧
          ∃ ap ∈ apps, ap.hasCoords = false ∧ ap.date = d) ∧
      (startHasCoords usp = false →
        optimizeRoute dist now apps usp = .error .invalidStartingPoint) ∧
      (∀ res, optimizeRoute dist now apps usp = .ok res →
        ∀ ap ∈ apps, ap.hasCoords = true) := by
  refine ⟨?_, ?_, ?_⟩
  · intro hbad hstart
    obtain ⟨d, herr, ap, hap, hb, hd⟩ := formatDestinations_bad apps hbad
    match usp with
    | none => simp [startHasCoords] at hstart
    | some sp =>
        rcases hsp : sp.coordinates with _ | c
        · rw [startHasCoords, hsp] at hstart; simp [Option.isSome] at hstart
        · exact ⟨d, optimizeRoute_format_error dist now apps (some sp) _
            (formatAppointmentsForRouting_error apps sp c hsp _ herr),
            rfl, rfl, ap, hap, hb, hd⟩
  · intro hstart
    exact optimizeRoute_format_error dist now apps usp _
      (formatAppointmentsForRouting_noStart apps usp hstart)
  · intro res hres ap hap
    match usp with
    | none => exact absurd hres (by simp [optimizeRoute, formatAppointmentsForRouting])
    | some sp =>
        rcases hsp : sp.coordinates with _ | c
        · exact absurd hres (by simp [optimizeRoute, formatAppointmentsForRouting, hsp])
        · match hfd : formatDestinations apps with
          | .error e =>
              exact absurd hres (by
                rw [optimizeRoute_format_error dist now apps (some sp) e
                  (formatAppointmentsForRouting_error apps sp c hsp e hfd)]
                simp)
          | .ok ds => exact formatDestinations_ok apps ds hfd ap hap

/-! ### Concrete inputs used by witnesses and counterexamples

All coordinates are coincident (`⟨0, 0⟩`), so the Haversine metric
evaluates to `0` on every pair (`calculateDistance_symm_self`); the
concrete distance parameter `fun _ _ => 0` realises exactly those values. -/

/-- A valid starting point at the origin. -/
def exStart : StartingPoint :=
  { name := ("Home"), address := ("HQ"), coordinates := some ⟨0, 0⟩ }

/-- An appointment whose client has an address without coordinates. -/
def exBadAppointment : Appointment :=
  { id := ("a1"), clientId := ("c1"), petId := ("p1"), date := some 0,
    serviceType := ("walk"), duration := some 60,
    client := some { name := ("Alice"),
                     address := some { formatted := none, coordinates := none } } }

/-- A fully valid appointment scheduled at time 0 with duration 60. -/
def exGoodAppointment : Appointment :=
  { id := ("a2"), clientId := ("c2"), petId := ("p2"), date := some 0,
    serviceType := ("walk"), duration := some 60,
    client := some { name := ("Bob"),
                     address := some { formatted := some ("1 Main St"),
                                       coordinates := some ⟨0, 0⟩ } } }

/-- A coordinate-complete appointment with a missing scheduled time. -/
def exNoTimeAppointment : Appointment :=
  { id := ("a3"), clientId := ("c3"), petId := ("p3"), date := none,
    serviceType := ("walk"), duration := some 60,
    client := some { name := ("Carol"),
                     address := some { formatted := some ("2 Main St"),
                                       coordinates := some ⟨0, 0⟩ } } }

/-- The destination formatted from `exNoTimeAppointment`. -/
def exNoTimeDest : Destination :=
  { id := ("a3"), appointmentId := ("a3"), clientId := ("c3"),
    clientName := ("Carol"), petId := ("p3"), time := none,
    address := ("2 Main St"), coordinates := ⟨0, 0⟩,
    serviceType := ("walk"), duration := 60 }

/-- Stop A: scheduled at 0 ms, duration 60 min. -/
def cexStopA : Destination :=
  { id := ("sA"), appointmentId := ("sA"), clientId := ("c"),
    clientName := ("N"), petId := ("p"), time := some 0,
    address := ("addr"), coordinates := ⟨0, 0⟩,
    serviceType := ("walk"), duration := 60 }

/-- Stop B: scheduled at 1 000 000 ms, duration 60 min. -/
def cexStopB : Destination :=
  { id := ("sB"), appointmentId := ("sB"), clientId := ("c"),
    clientName := ("N"), petId := ("p"), time := some 1000000,
    address := ("addr"), coordinates := ⟨0, 0⟩,
    serviceType := ("walk"), duration := 60 }

/-- Stop C: scheduled at 2 000 000 ms, duration 60 min. -/
def cexStopC : Destination :=
  { id := ("sC"), appointmentId := ("sC"), clientId := ("c"),
    clientName := ("N"), petId := ("p"), time := some 2000000,
    address := ("addr"), coordinates := ⟨0, 0⟩,
    serviceType := ("walk"), duration := 60 }


/-! ### The end-waypoint `TypeError` dominates every non-empty tour -/

/-- The only error the start waypoint can throw is a `TypeError` (from
`route[0].time.getTime()` on a missing first scheduled time). -/
theorem startWaypoint_error_eq (sp : StartingPoint) (now : Int)
    (route : List Destination) (ls : ℚ) (e : RouteError)
    (h : startWaypoint sp now route ls = .error e) : e = .typeError := by
  match route with
  | [] => cases h
  | r0 :: rest =>
      rcases ht : r0.time with _ | t0
      · simp [startWaypoint, ht] at h
        exact h.symm
      · simp [startWaypoint, ht] at h

/-- The only error the post-first appointment waypoints can throw is a
`TypeError` (from `route[index-1].time.getTime()`). -/
theorem laterAppointmentWaypoints_error_eq (ls : ℚ) :
    ∀ (rest : List Destination) (prev : Destination) (e : RouteError),
      laterAppointmentWaypoints ls prev rest = .error e → e = .typeError := by
  intro rest
  induction rest with
  | nil => intro prev e h; cases h
  | cons stop rest' ih =>
      intro prev e h
      rcases ht : prev.time with _ | tp
      · simp [laterAppointmentWaypoints, laterAppointmentWaypoint, ht] at h
        exact h.symm
      · rcases hv : laterAppointmentWaypoints ls stop rest' with e' | ws
        · have he' := ih stop e' hv
          simp [laterAppointmentWaypoints, laterAppointmentWaypoint, ht, hv] at h
          exact h ▸ he'
        · simp [laterAppointmentWaypoints, laterAppointmentWaypoint, ht, hv] at h

/-- The only error the appointment-waypoint map can throw is a
`TypeError`. -/
theorem appointmentWaypoints_error_eq (ls : ℚ) (route : List Destination)
    (e : RouteError) (h : appointmentWaypoints ls route = .error e) : e = .typeError := by
  match route with
  | [] => cases h
  | stop :: rest =>
      rcases hv : laterAppointmentWaypoints ls stop rest with e' | ws
      · have he' := laterAppointmentWaypoints_error_eq ls rest stop e' hv
        simp [appointmentWaypoints, hv] at h
        exact h ▸ he'
      · simp [appointmentWaypoints, hv] at h

/-- For every non-empty route, the schedule synthesis/assembly fails with a
`TypeError`: the end waypoint reads the non-existent `departureTime`
property of the last route element, and any earlier failure (a missing
scheduled time) is also a `TypeError`. -/
theorem assembleRouteResult_nonempty (sp : StartingPoint) (now : Int)
    (route : List Destination) (td : ℚ) (hne : route ≠ []) :
    assembleRouteResult sp now route td = .error .typeError := by
  unfold assembleRouteResult
  dsimp only
  rcases hs : startWaypoint sp now route
      (((jsRound (td / 30 * 60) : Int) : ℚ) / (route.length : ℚ) * 60000) with es | w
  · rw [startWaypoint_error_eq _ _ _ _ _ hs]
  · rcases hw : appointmentWaypoints
        (((jsRound (td / 30 * 60) : Int) : ℚ) / (route.length : ℚ) * 60000) route with ew | ws
    · rw [appointmentWaypoints_error_eq _ _ _ hw]
    · match route, hne with
      | r :: rs, _ => rfl

/-- Whenever the input formats successfully to a non-empty destination
list, `optimizeRoute` fails with a `TypeError` — it never returns a
`RouteResult` for a non-empty tour. -/
theorem optimizeRoute_nonempty_typeError (dist : Option Coords → Option Coords → ℚ)
    (now : Int) (apps : List Appointment) (usp : Option StartingPoint)
    (sp : StartingPoint) (ds : List Destination)
    (hfmt : formatAppointmentsForRouting apps usp = .ok (sp, ds)) (hne : ds ≠ []) :
    optimizeRoute dist now apps usp = .error .typeError := by
  match ds, hne with
  | u :: us, _ =>
      simp only [optimizeRoute, hfmt]
      apply assembleRouteResult_nonempty
      show (nnLoop _ _ (u :: us)).1 ≠ []
      rw [nnLoop_cons]
      exact List.cons_ne_nil _ _

/-! ### Evaluation helpers for concrete date arithmetic -/

/-- `ratFloor` of an integer is that integer. -/
theorem ratFloor_intCast (n : Int) : ratFloor ((n : ℚ)) = n := by
  simp [ratFloor, Rat.num_intCast, Rat.den_intCast, Int.fdiv_one]

/-- Clipping an integral time value is the identity. -/
theorem jsDateValue_intCast (n : Int) : jsDateValue ((n : ℚ)) = n := by
  unfold jsDateValue
  by_cases h : (0 : ℚ) ≤ (n : ℚ)
  · rw [if_pos h, ratFloor_intCast]
  · rw [if_neg h, show (-(n : ℚ)) = ((-n : Int) : ℚ) by push_cast; ring,
      ratFloor_intCast, neg_neg]

/-! ### Claim theorems for the schedule synthesizer -/

/-- C2 (code bug): the specified end waypoint is never produced.  On the
failing input — one fully valid appointment (`exGoodAppointment`), a valid
starting point — `optimizeRoute` throws a `TypeError` instead of returning
a result whose end waypoint has `arrivalTime = lastWaypoint.departureTime
+ legShare` and `departureTime = null`: line 152 reads
`route[route.length - 1].departureTime`, but the elements of `route` are
the destination objects, which have no `departureTime` field (the spec
describes the intended read of the last *waypoint*'s departure time). -/
theorem optimizeRoute_endWaypoint_typeError :
    optimizeRoute (fun _ _ => 0) 0 [exGoodAppointment] (some exStart)
        = .error .typeError ∧
      RouteError.typeError.isValidation = false := by
  constructor
  · decide
  · rfl

/-- C3 counterexample: a coordinate-complete input whose only Stop lacks
its scheduled time.  `optimizeRoute` does fail, but with a `TypeError` —
not with a validation error, and not with anything identifying the
offending Stop. -/
theorem optimizeRoute_missingTime_cex :
    exNoTimeAppointment.date = none ∧
      optimizeRoute (fun _ _ => 0) 0 [exNoTimeAppointment] (some exStart)
          = .error .typeError ∧
      RouteError.typeError.isValidation = false ∧
      RouteError.typeError.namesAppointment = false := by
  refine ⟨rfl, ?_, rfl, rfl⟩
  decide

/-- C3 amended: for every input that formats successfully to a non-empty
destination list among which some Stop lacks its scheduled time, the
schedule synthesis fails — but with a `TypeError` (the error every
non-empty tour hits, raised by a `.getTime()` call on `undefined`), which
is not a validation error and does not identify the offending Stop; no
default is ever substituted for the missing scheduled time. -/
theorem optimizeRoute_missingTime_typeError (dist : Option Coords → Option Coords → ℚ)
    (now : Int) (apps : List Appointment) (usp : Option StartingPoint)
    (sp : StartingPoint) (ds : List Destination)
    (hfmt : formatAppointmentsForRouting apps usp = .ok (sp, ds)) (hne : ds ≠ [])
    (_hmiss : ∃ dest ∈ ds, dest.time = none) :
    optimizeRoute dist now apps usp = .error .typeError ∧
      RouteError.typeError.isValidation = false ∧
      RouteError.typeError.namesAppointment = false :=
  ⟨optimizeRoute_nonempty_typeError dist now apps usp sp ds hfmt hne, rfl, rfl⟩

/-- Witness for the amended C3 at a concrete input. -/
theorem optimizeRoute_missingTime_typeError_witness :
    (formatAppointmentsForRouting [exNoTimeAppointment] (some exStart)
        = .ok (exStart, [exNoTimeDest])) ∧
      ([exNoTimeDest] ≠ []) ∧
      (∃ dest ∈ [exNoTimeDest], dest.time = none) ∧
      (optimizeRoute (fun _ _ => 0) 1 [exNoTimeAppointment] (some exStart)
          = .error .typeError ∧
        RouteError.typeError.isValidation = false ∧
        RouteError.typeError.namesAppointment = false) :=
  ⟨by decide, by decide, ⟨exNoTimeDest, List.mem_cons_self _ _, rfl⟩,
    optimizeRoute_missingTime_typeError (fun _ _ => 0) 1 [exNoTimeAppointment]
      (some exStart) exStart [exNoTimeDest] (by decide) (by decide)
      ⟨exNoTimeDest, List.mem_cons_self _ _, rfl⟩⟩

/-! ### Claim theorem for the waypoint structure -/

/-- C8: every successful `optimizeRoute` invocation returns a waypoints
list that is exactly one start-typed waypoint, then one appointment-typed
waypoint per tour stop in tour order, then one end-typed waypoint; hence
`waypoints.length = optimizedRoute.length + 2`.  (Because of the
end-waypoint `TypeError` — see `optimizeRoute_nonempty_typeError` — the
successful invocations are exactly those with an empty tour, for which the
list is `[start, end]`.) -/
theorem optimizeRoute_waypoints_shape (dist : Option Coords → Option Coords → ℚ)
    (now : Int) (apps : List Appointment) (usp : Option StartingPoint)
    (res : RouteResult) (h : optimizeRoute dist now apps usp = .ok res) :
    ∃ sp arrS depS arrE apWs,
      res.waypoints = Waypoint.start sp arrS depS :: (apWs ++ [Waypoint.endPoint sp arrE none]) ∧
      apWs.length = res.optimizedRoute.length ∧
      (∀ i stop, res.optimizedRoute.get? i = some stop →
        ∃ w, apWs.get? i = some w ∧ w.isAppointment = true ∧ w.stopOf = some stop) ∧
      res.waypoints.length = res.optimizedRoute.length + 2 := by
  rcases hfmt : formatAppointmentsForRouting apps usp with e | fmt
  · rw [optimizeRoute_format_error dist now apps usp e hfmt] at h
    cases h
  · have h' : optimizeRoute dist now apps usp
        = assembleRouteResult fmt.1 now
            (nearestNeighbor
              (fun (sp : StartingPoint) (p : Destination) =>
                dist sp.coordinates (some p.coordinates))
              (fun a b => dist (some a.coordinates) (some b.coordinates))
              (some fmt.1) (some fmt.2)).route
            (nearestNeighbor
              (fun (sp : StartingPoint) (p : Destination) =>
                dist sp.coordinates (some p.coordinates))
              (fun a b => dist (some a.coordinates) (some b.coordinates))
              (some fmt.1) (some fmt.2)).totalDistance := by
      simp [optimizeRoute, hfmt]
    rw [h'] at h
    rcases hroute : (nearestNeighbor
        (fun (sp : StartingPoint) (p : Destination) =>
          dist sp.coordinates (some p.coordinates))
        (fun a b => dist (some a.coordinates) (some b.coordinates))
        (some fmt.1) (some fmt.2)).route with _ | ⟨r, rs⟩
    · rw [hroute] at h
      simp only [assembleRouteResult, startWaypoint, appointmentWaypoints,
        endWaypoint, Except.ok.injEq] at h
      subst h
      refine ⟨fmt.1, none, some now, some now, [], rfl, rfl, ?_, rfl⟩
      intro i stop hstop
      simp at hstop
    · rw [hroute] at h
      rw [assembleRouteResult_nonempty fmt.1 now (r :: rs) _ (List.cons_ne_nil r rs)] at h
      cases h

/-- Witness for C8: the empty-appointment invocation succeeds and its
waypoint list is `[start, end]`. -/
theorem optimizeRoute_waypoints_shape_witness :
    ∃ sp arrS depS arrE apWs,
      (RouteResult.waypoints
          { waypoints := [Waypoint.start exStart none (some 7),
              Waypoint.endPoint exStart (some 7) none],
            optimizedRoute := [], appointmentIds := [],
            totalDistance := 0, estimatedTravelTime := jsRound (0 / 30 * 60),
            startPoint := exStart, endPoint := exStart })
          = Waypoint.start sp arrS depS :: (apWs ++ [Waypoint.endPoint sp arrE none]) ∧
      apWs.length = 0 ∧
      (∀ i stop, ([] : List Destination).get? i = some stop →
        ∃ w, apWs.get? i = some w ∧ w.isAppointment = true ∧ w.stopOf = some stop) ∧
      ([Waypoint.start exStart none (some 7),
          Waypoint.endPoint exStart (some 7) none] : List Waypoint).length = 0 + 2 := by
  have h := optimizeRoute_waypoints_shape (fun _ _ => 0) 7 [] (some exStart)
    { waypoints := [Waypoint.start exStart none (some 7),
        Waypoint.endPoint exStart (some 7) none],
      optimizedRoute := [], appointmentIds := [],
      totalDistance := 0, estimatedTravelTime := jsRound (0 / 30 * 60),
      startPoint := exStart, endPoint := exStart } rfl
  simpa using h

/-- Witness for C4: a concrete appointment whose client record has an
address without coordinates makes `optimizeRoute` fail with the validation
error carrying that appointment's scheduled time. -/
theorem optimizeRoute_validation_witness :
    ∃ d, optimizeRoute (fun _ _ => 0) 0 [exBadAppointment] (some exStart)
        = .error (.missingCoordinates d) ∧
      (RouteError.missingCoordinates d).isValidation = true ∧
      (RouteError.missingCoordinates d).namesAppointment = true ∧
      ∃ ap ∈ [exBadAppointment], ap.hasCoords = false ∧ ap.date = d :=
  (optimizeRoute_validation (fun _ _ => 0) 0 [exBadAppointment] (some exStart)).1
    ⟨exBadAppointment, List.mem_cons_self _ _, by decide⟩ (by decide)

/-! ### Claim theorems for the subsequent-waypoint schedule formula -/

/-- Index-wise description of the post-first appointment waypoints: the
waypoint at index `i` of the tail corresponds to `rest[i]`, and its times
are computed from the time and duration of the stop at index `i` of the
pool `prev :: rest` — i.e. from the previous stop's scheduled data. -/
theorem laterAppointmentWaypoints_get (ls : ℚ) :
    ∀ (rest : List Destination) (prev : Destination) (ws : List Waypoint),
      laterAppointmentWaypoints ls prev rest = .ok ws →
      ∀ (i : Nat) (prevStop stop : Destination),
        (prev :: rest).get? i = some prevStop → rest.get? i = some stop →
        ∃ tp, prevStop.time = some tp ∧
          ws.get? i = some (.appointment stop
            (some (jsDateValue ((tp : ℚ) + prevStop.duration * 60000 + ls)))
            (some (jsDateValue
              ((jsDateValue ((tp : ℚ) + prevStop.duration * 60000 + ls) : ℚ)
                + stop.duration * 60000)))) := by
  intro rest
  induction rest with
  | nil =>
      intro prev ws _ i prevStop stop _ hstop
      cases i <;> cases hstop
  | cons stop0 rest' ih =>
      intro prev ws hok i prevStop stop hprev hstop
      rcases ht : prev.time with _ | tp0
      · simp [laterAppointmentWaypoints, laterAppointmentWaypoint, ht] at hok
      · rcases hv : laterAppointmentWaypoints ls stop0 rest' with e | ws'
        · simp [laterAppointmentWaypoints, laterAppointmentWaypoint, ht, hv] at hok
        · simp only [laterAppointmentWaypoints, laterAppointmentWaypoint, ht, hv] at hok
          rw [Except.ok.injEq] at hok
          subst hok
          match i with
          | 0 =>
              have h1 : prevStop = prev := by simpa using hprev.symm
              have h2 : stop = stop0 := by simpa using hstop.symm
              subst h1; subst h2
              exact ⟨tp0, ht, rfl⟩
          | i' + 1 =>
              exact ih stop0 ws' hv i' prevStop stop (by simpa using hprev)
                (by simpa using hstop)

/-- C1 amended: for every successful run of the appointment-waypoint map,
each appointment waypoint after the first satisfies
`arrivalTime = previousStop.scheduledTime + previousStop.duration +
legShare` — anchored to the previous *stop's* scheduled time, not to the
previous waypoint's computed departure time — and
`departureTime = arrivalTime + stop.duration` (times in milliseconds,
durations in minutes, each `new Date(...)` clipping to integral
milliseconds). -/
theorem appointmentWaypoints_subsequent (ls : ℚ) (route : List Destination)
    (ws : List Waypoint) (h : appointmentWaypoints ls route = .ok ws)
    (i : Nat) (prev stop : Destination)
    (hprev : route.get? i = some prev) (hstop : route.get? (i + 1) = some stop) :
    ∃ tp, prev.time = some tp ∧
      ws.get? (i + 1) = some (.appointment stop
        (some (jsDateValue ((tp : ℚ) + prev.duration * 60000 + ls)))
        (some (jsDateValue
          ((jsDateValue ((tp : ℚ) + prev.duration * 60000 + ls) : ℚ)
            + stop.duration * 60000)))) := by
  match route with
  | [] => cases hprev
  | s0 :: rest =>
      rcases hv : laterAppointmentWaypoints ls s0 rest with e | ws'
      · simp [appointmentWaypoints, hv] at h
      · simp only [appointmentWaypoints, hv] at h
        rw [Except.ok.injEq] at h
        subst h
        have := laterAppointmentWaypoints_get ls rest s0 ws' hv i prev stop hprev
          (by simpa using hstop)
        simpa using this

/-- Witness for the amended C1 at a concrete two-stop route with
`legShare = 0`. -/
theorem appointmentWaypoints_subsequent_witness :
    ∃ tp, cexStopA.time = some tp ∧
      ([firstAppointmentWaypoint cexStopA,
        Waypoint.appointment cexStopB
          (some (jsDateValue (((0 : Int) : ℚ) + cexStopA.duration * 60000 + 0)))
          (some (jsDateValue
            (((jsDateValue (((0 : Int) : ℚ) + cexStopA.duration * 60000 + 0) : Int) : ℚ)
              + cexStopB.duration * 60000)))] : List Waypoint).get? (0 + 1)
        = some (.appointment cexStopB
            (some (jsDateValue ((tp : ℚ) + cexStopA.duration * 60000 + 0)))
            (some (jsDateValue
              ((jsDateValue ((tp : ℚ) + cexStopA.duration * 60000 + 0) : ℚ)
                + cexStopB.duration * 60000)))) :=
  appointmentWaypoints_subsequent 0 [cexStopA, cexStopB]
    [firstAppointmentWaypoint cexStopA,
      Waypoint.appointment cexStopB
        (some (jsDateValue (((0 : Int) : ℚ) + cexStopA.duration * 60000 + 0)))
        (some (jsDateValue
          (((jsDateValue (((0 : Int) : ℚ) + cexStopA.duration * 60000 + 0) : Int) : ℚ)
            + cexStopB.duration * 60000)))]
    rfl 0 cexStopA cexStopB rfl rfl

/-- C1 counterexample: three stops at the same coordinate (so every leg of
the Haversine metric is `0`, totalTravelMinutes is `0` and `legShare = 0`),
scheduled at 0 ms, 1 000 000 ms and 2 000 000 ms, each lasting 60 minutes.
The second appointment waypoint departs at 7 200 000 ms, so the claim
`arrivalTime = previousWaypoint.departureTime + legShare` would put the
third waypoint's arrival at 7 200 000 ms — but the code computes it from
the previous stop's scheduled time as 1 000 000 + 60·60 000 + 0 =
4 600 000 ms. -/
theorem appointmentWaypoints_prevDeparture_cex :
    ((appointmentWaypoints 0 [cexStopA, cexStopB, cexStopC]).map
        (fun ws => ((ws.get? 1).map Waypoint.departureTimeOf,
                    (ws.get? 2).map Waypoint.arrivalTimeOf)))
      = .ok (some (some 7200000), some (some 4600000)) ∧
    (4600000 : Int) ≠ jsDateValue (((7200000 : Int) : ℚ) + 0) := by
  have harr1 : jsDateValue (((0 : Int) : ℚ) + cexStopA.duration * 60000 + (0 : ℚ))
      = (3600000 : Int) := by
    rw [show (((0 : Int) : ℚ) + cexStopA.duration * 60000 + (0 : ℚ))
        = ((3600000 : Int) : ℚ) by
      show ((0 : Int) : ℚ) + (60 : ℚ) * 60000 + (0 : ℚ) = ((3600000 : Int) : ℚ)
      push_cast
      norm_num]
    exact jsDateValue_intCast 3600000
  have hdep1 : jsDateValue (((3600000 : Int) : ℚ) + cexStopB.duration * 60000)
      = (7200000 : Int) := by
    rw [show (((3600000 : Int) : ℚ) + cexStopB.duration * 60000)
        = ((7200000 : Int) : ℚ) by
      show ((3600000 : Int) : ℚ) + (60 : ℚ) * 60000 = ((7200000 : Int) : ℚ)
      push_cast
      norm_num]
    exact jsDateValue_intCast 7200000
  have harr2 : jsDateValue (((1000000 : Int) : ℚ) + cexStopB.duration * 60000 + (0 : ℚ))
      = (4600000 : Int) := by
    rw [show (((1000000 : Int) : ℚ) + cexStopB.duration * 60000 + (0 : ℚ))
        = ((4600000 : Int) : ℚ) by
      show ((1000000 : Int) : ℚ) + (60 : ℚ) * 60000 + (0 : ℚ) = ((4600000 : Int) : ℚ)
      push_cast
      norm_num]
    exact jsDateValue_intCast 4600000
  have hleg : jsDateValue (((7200000 : Int) : ℚ) + 0) = (7200000 : Int) := by
    rw [show (((7200000 : Int) : ℚ) + 0) = ((7200000 : Int) : ℚ) by ring]
    exact jsDateValue_intCast 7200000
  constructor
  · rw [show appointmentWaypoints 0 [cexStopA, cexStopB, cexStopC]
        = Except.ok [firstAppointmentWaypoint cexStopA,
            Waypoint.appointment cexStopB
              (some (jsDateValue (((0 : Int) : ℚ) + cexStopA.duration * 60000 + 0)))
              (some (jsDateValue
                (((jsDateValue (((0 : Int) : ℚ) + cexStopA.duration * 60000 + 0) : Int) : ℚ)
                  + cexStopB.duration * 60000))),
            Waypoint.appointment cexStopC
              (some (jsDateValue (((1000000 : Int) : ℚ) + cexStopB.duration * 60000 + 0)))
              (some (jsDateValue
                (((jsDateValue (((1000000 : Int) : ℚ) + cexStopB.duration * 60000 + 0) : Int) : ℚ)
                  + cexStopC.duration * 60000)))] from rfl]
    simp only [Except.map, List.get?, Option.map, Waypoint.departureTimeOf,
      Waypoint.arrivalTimeOf, harr1, hdep1, harr2]
  · rw [hleg]
    decide
